import Mathlib

/-!
Shallow embedding of pg_config.c (the pg_config extension exposing the
output of the pg_config tool as a set-returning SQL function) and proofs
of the specification claims about it.

The embedding models the non-Windows build: the body of cleanup_path is
conditionally compiled under WIN32 and is empty otherwise, so here it is
the identity. C strings are modelled as Lean String values (the bytes
before the terminating NUL); the fixed char[MAXPGPATH] buffer used by
get_configdata and conf_strlcat is modelled as a List Char of that
capacity, NUL-padded after the string it holds.
-/

namespace PgConfig

/-- MAXPGPATH, the size in bytes of every path buffer in the module. -/
def MAXPGPATH : Nat := 1024

/-- Type oid of the SQL text type, compared against atttypid in pg_config. -/
def TEXTOID : Nat := 25

/-- The NUL character terminating C strings. -/
def nulC : Char := Char.ofNat 0

/-- Length of the C string held by a buffer: the bytes before the first NUL. -/
def cstrLen (b : List Char) : Nat := (b.takeWhile (fun c => c ≠ nulC)).length

/-- Helper for lastIndexOf: index (offset by i) of the last occurrence of c. -/
def lastIndexOfAux (c : Char) : List Char → Nat → Option Nat
  | [], _ => none
  | x :: xs, i =>
    match lastIndexOfAux c xs (i + 1) with
    | some j => some j
    | none => if x = c then some i else none

/-- Index of the last occurrence of c in l, as computed by strrchr. -/
def lastIndexOf (c : Char) (l : List Char) : Option Nat := lastIndexOfAux c l 0

/-- Embeds lines 210-213 of get_configdata: strcpy the executable path into
the buffer, strrchr the last slash, and cut the string there if one exists. -/
def stripLastSegment (s : String) : String :=
  match lastIndexOf '/' s.data with
  | none => s
  | some i => String.mk (s.data.take i)

/-- cleanup_path from pg_config.c: its whole body is under an ifdef WIN32
conditional, so in the non-Windows build modelled here it leaves the path
unchanged. -/
def cleanup_path (path : String) : String := path

/-- A string produced into a char array of MAXPGPATH bytes can hold at most
MAXPGPATH - 1 characters before the NUL. -/
def fitPath (s : String) : String := String.mk (s.data.take (MAXPGPATH - 1))

/-- Modelled from the spec: the platform path-derivation utilities
(get_doc_path, get_html_path, get_include_path, get_pkginclude_path,
get_includeserver_path, get_lib_path, get_pkglib_path, get_locale_path,
get_man_path, get_share_path, get_etc_path) are external collaborators not
present under src; per the spec each derivation rule is a fixed relative
offset from the executable's install root. This structure holds those
eleven fixed offsets, one per rule. -/
structure PathOffsets where
  doc : String
  html : String
  includedir : String
  pkginclude : String
  includeserver : String
  lib : String
  pkglib : String
  locale : String
  man : String
  share : String
  etc : String

/-- Modelled from the spec: applying one derivation rule means appending its
fixed offset to the install root (the executable path with its trailing
segment stripped), the result being written into a caller-supplied buffer
of MAXPGPATH bytes and hence holding at most MAXPGPATH - 1 characters. -/
def derivePath (off : String) (exec : String) : String :=
  fitPath (stripLastSegment exec ++ off)

/-- The optional build-time string constants (VAL_CONFIGURE .. VAL_LIBS),
each present exactly when the corresponding ifdef held at build time, and
the mandatory embedded version string PG_VERSION. -/
structure BuildVals where
  val_configure : Option String
  val_cc : Option String
  val_cppflags : Option String
  val_cflags : Option String
  val_cflags_sl : Option String
  val_ldflags : Option String
  val_ldflags_sl : Option String
  val_libs : Option String
  pg_version : String

/-- Embeds the ifdef pattern of lines 266-312: use the embedded constant if
it was defined at build time, else the literal "not recorded". -/
def orNotRecorded : Option String → String
  | some v => v
  | none => "not recorded"

/-- Embeds conf_strlcat (lines 317-345) on a buffer modelled as a list of
chars. First loop: advance d while n-- is nonzero and the byte is not NUL,
giving dlen, the lesser of siz and the held string length; scanDlen follows
that loop shape directly. -/
def scanDlen : Nat → List Char → Nat
  | 0, _ => 0
  | _ + 1, [] => 0
  | n + 1, c :: rest => if c = nulC then 0 else scanDlen n rest + 1

/-- Embeds conf_strlcat (lines 317-345). After the scan, n := siz - dlen; if
n is zero return (dlen + strlen src) with the buffer untouched; otherwise
the copy loop walks all of src, writing a byte and decrementing n only while
n is not 1 - so exactly k := min (strlen src) (n - 1) bytes of src are
copied to positions dlen.., a NUL is written at position dlen + k, and the
returned count is dlen + strlen src (s - src after the loop). -/
def conf_strlcat (dst : List Char) (src : List Char) (siz : Nat) :
    List Char × Nat :=
  let dlen := scanDlen siz dst
  let n := siz - dlen
  if n = 0 then (dst, dlen + src.length)
  else
    let k := min src.length (n - 1)
    (dst.take dlen ++ src.take k ++ nulC :: dst.drop (dlen + k + 1),
     dlen + src.length)

/-- A string laid out in a buffer of siz bytes: its characters followed by
NUL padding. -/
def strToBuf (s : String) (siz : Nat) : List Char :=
  s.data ++ List.replicate (siz - s.data.length) nulC

/-- The C string a buffer holds: the characters before the first NUL. -/
def bufToStr (b : List Char) : String :=
  String.mk (b.takeWhile (fun c => c ≠ nulC))

/-- conf_strlcat acting on strings through the buffer layout, as in line 262
where the pgxs.mk suffix is appended to the pkglib path inside the
char[MAXPGPATH] buffer. -/
def conf_strlcat_str (dst src : String) (siz : Nat) : String :=
  bufToStr (conf_strlcat (strToBuf dst siz) src.data siz).1

/-- Embeds get_configdata (lines 204-315): the 22 setting strings it stores
into ConfigData\[0..21\], in order. Index 0 strips the last path segment of
the executable path; indices 1-11 apply the eleven derivation rules; index
12 applies the pkglib rule then conf_strlcat with the pgxs.mk suffix and
sizeof(path) = MAXPGPATH; indices 13-20 are the optional build constants
with the "not recorded" fallback; index 21 is "PostgreSQL " PG_VERSION.
Every path goes through cleanup_path before pstrdup. -/
def get_configdata (L : PathOffsets) (B : BuildVals) (exec : String) :
    List (Option String) :=
  [ some (cleanup_path (stripLastSegment exec)),
    some (cleanup_path (derivePath L.doc exec)),
    some (cleanup_path (derivePath L.html exec)),
    some (cleanup_path (derivePath L.includedir exec)),
    some (cleanup_path (derivePath L.pkginclude exec)),
    some (cleanup_path (derivePath L.includeserver exec)),
    some (cleanup_path (derivePath L.lib exec)),
    some (cleanup_path (derivePath L.pkglib exec)),
    some (cleanup_path (derivePath L.locale exec)),
    some (cleanup_path (derivePath L.man exec)),
    some (cleanup_path (derivePath L.share exec)),
    some (cleanup_path (derivePath L.etc exec)),
    some (cleanup_path
      (conf_strlcat_str (derivePath L.pkglib exec)
        "/pgxs/src/makefiles/pgxs.mk" MAXPGPATH)),
    some (orNotRecorded B.val_configure),
    some (orNotRecorded B.val_cc),
    some (orNotRecorded B.val_cppflags),
    some (orNotRecorded B.val_cflags),
    some (orNotRecorded B.val_cflags_sl),
    some (orNotRecorded B.val_ldflags),
    some (orNotRecorded B.val_ldflags_sl),
    some (orNotRecorded B.val_libs),
    some ("PostgreSQL " ++ B.pg_version) ]

/-- One entry of the static ConfigData array: a name and a setting, either
of which may be NULL. -/
structure ConfigEntry where
  name : Option String
  setting : Option String
deriving DecidableEq

/-- The 22 names of the static ConfigData array (lines 62-87), in order. -/
def ConfigDataNames : List String :=
  ["BINDIR", "DOCDIR", "HTMLDIR", "INCLUDEDIR", "PKGINCLUDEDIR",
   "INCLUDEDIR-SERVER", "LIBDIR", "PKGLIBDIR", "LOCALEDIR", "MANDIR",
   "SHAREDIR", "SYSCONFDIR", "PGXS", "CONFIGURE", "CC", "CPPFLAGS",
   "CFLAGS", "CFLAGS_SL", "LDFLAGS", "LDFLAGS_SL", "LIBS", "VERSION"]

/-- The static ConfigData array as seen with a given settings column: the 22
named entries followed by the all-NULL sentinel entry. -/
def mkTable (settings : List (Option String)) : List ConfigEntry :=
  (List.zip ConfigDataNames settings).map (fun p => ⟨some p.1, p.2⟩)
    ++ [⟨none, none⟩]

/-- The mutable state of the module: the settings column of the static
ConfigData array (its names column is never written). In the C source this
array is file-static, so it is shared by every invocation. -/
def initSettings : List (Option String) := List.replicate 22 none

/-- Embeds the emission loop of pg_config (lines 142-150): walk the table
from index 0, building one (name, setting) row per entry, stopping at the
first entry whose name is NULL. -/
def emitLoop : List ConfigEntry → List (String × Option String)
  | [] => []
  | e :: rest =>
    match e.name with
    | none => []
    | some nm => (nm, e.setting) :: emitLoop rest

/-- get_configdata as a transformer of the shared settings state: it assigns
all 22 settings from its inputs alone, overwriting whatever the previous
call stored (it never reads the old settings). -/
def populate (L : PathOffsets) (B : BuildVals) (exec : String)
    (_st : List (Option String)) : List (Option String) :=
  get_configdata L B exec

/-- The two error conditions pg_config can raise through ereport. -/
inductive PgError where
  | unsupportedContext
  | schemaMismatch
deriving DecidableEq

/-- The caller-side ReturnSetInfo as far as pg_config inspects it: whether
allowedModes contains SFRM_Materialize, and the attribute type oids of the
expected tuple descriptor. -/
structure RsInfo where
  allowsMaterialize : Bool
  expectedDesc : List Nat

/-- Embeds the pg_config SQL function (lines 95-172) as a state transformer
on the shared settings array. A NULL rsinfo or a caller not allowing
materialize mode errors out first (lines 109-113); then a tuple descriptor
that is not exactly two text columns errors out (lines 124-130); both
errors leave the state untouched and produce no rows. Otherwise
get_configdata repopulates the shared array and the loop emits one row per
named entry into the tuplestore. -/
def pg_config (L : PathOffsets) (B : BuildVals) (exec : String)
    (rsinfo : Option RsInfo) (st : List (Option String)) :
    List (Option String) × Except PgError (List (String × Option String)) :=
  match rsinfo with
  | none => (st, Except.error PgError.unsupportedContext)
  | some ri =>
    if ri.allowsMaterialize = false then
      (st, Except.error PgError.unsupportedContext)
    else if ri.expectedDesc.length ≠ 2 ∨ ri.expectedDesc.getD 0 0 ≠ TEXTOID
        ∨ ri.expectedDesc.getD 1 0 ≠ TEXTOID then
      (st, Except.error PgError.schemaMismatch)
    else
      let st1 := populate L B exec st
      (st1, Except.ok (emitLoop (mkTable st1)))

/-- Sample offsets for the eleven spec-modelled derivation rules, used to
instantiate theorems at concrete inputs. -/
def sampleOffsets : PathOffsets :=
  ⟨"/doc", "/doc/html", "/include", "/include/pg", "/include/server",
   "/lib", "/lib/pg", "/share/locale", "/man", "/share", "/etc"⟩

/-- Sample build-time constants: CC embedded as gcc, the rest absent. -/
def sampleBuild : BuildVals :=
  ⟨none, some "gcc", none, none, none, none, none, none, "9.0.1"⟩

/-- A sample caller context allowing materialize mode with a two-text-column
tuple descriptor. -/
def sampleRsInfo : RsInfo := ⟨true, [TEXTOID, TEXTOID]⟩

/-- Offsets whose pkglib rule appends "/lib", used for the truncation
counterexample. -/
def cexOffsets : PathOffsets :=
  ⟨"/doc", "/doc/html", "/include", "/include/pg", "/include/server",
   "/lib", "/lib", "/share/locale", "/man", "/share", "/etc"⟩

/-- A 993-character install root, long enough that the pkglib path derived
from it (997 characters) cannot take the 27-character pgxs.mk suffix
within the MAXPGPATH buffer. -/
def longRoot : String := String.mk ('/' :: List.replicate 992 'a')

/-- An executable path of 995 characters (fitting the MAXPGPATH buffer of
my_exec_path) whose install root is longRoot, so that appending the
pgxs.mk suffix to its pkglib path overflows the buffer inside
conf_strlcat. -/
def longExec : String := longRoot ++ "/" ++ "x"

lemma lastIndexOfAux_eq_none (c : Char) (l : List Char) (h : c ∉ l)
    (i : Nat) : lastIndexOfAux c l i = none := by
  induction l generalizing i with
  | nil => rfl
  | cons x xs ih =>
    have hx : x ≠ c := fun hh => h (hh ▸ List.mem_cons_self x xs)
    have hxs : c ∉ xs := fun hh => h (List.mem_cons_of_mem _ hh)
    simp [lastIndexOfAux, ih hxs, hx]

lemma lastIndexOfAux_append (c : Char) (a b : List Char) (h : c ∉ b)
    (i : Nat) : lastIndexOfAux c (a ++ c :: b) i = some (a.length + i) := by
  induction a generalizing i with
  | nil =>
    simp [lastIndexOfAux, lastIndexOfAux_eq_none c b h]
  | cons x xs ih =>
    rw [List.cons_append]
    show (match lastIndexOfAux c (xs ++ c :: b) (i + 1) with
          | some j => some j
          | none => if x = c then some i else none)
        = some ((x :: xs).length + i)
    rw [ih (i + 1)]
    show some (xs.length + (i + 1)) = some ((x :: xs).length + i)
    simp only [List.length_cons, Option.some.injEq]
    omega

lemma stripLastSegment_append (pre seg : String) (h : '/' ∉ seg.data) :
    stripLastSegment (pre ++ "/" ++ seg) = pre := by
  have hd : (pre ++ "/" ++ seg).data = pre.data ++ '/' :: seg.data := by
    rw [String.data_append, String.data_append, List.append_assoc]
    rfl
  unfold stripLastSegment lastIndexOf
  rw [hd, lastIndexOfAux_append _ _ _ h 0]
  simp only [Nat.add_zero, List.take_left]

/-- C1: one invocation of the reporter (populate followed by emit) yields
exactly 22 (name, value) rows, their names in the fixed ConfigData order,
the emission loop stopping at the sentinel entry whose name is NULL, for
every ExecutablePath (and any derivation offsets and build constants). -/
theorem pg_config_emit_rows (L : PathOffsets) (B : BuildVals)
    (exec : String) :
    (emitLoop (mkTable (get_configdata L B exec))).length = 22 ∧
    (emitLoop (mkTable (get_configdata L B exec))).map Prod.fst
      = ConfigDataNames := by
  exact ⟨rfl, rfl⟩

/-- C5: the VERSION entry (index 21) is always the fixed product-name
"PostgreSQL " followed by the embedded version string, and is never the
fallback string "not recorded", whichever optional constants were
embedded. -/
theorem version_value_ok (L : PathOffsets) (B : BuildVals) (exec : String) :
    (get_configdata L B exec).getD 21 none
      = some ("PostgreSQL " ++ B.pg_version) ∧
    (∀ v : String, "PostgreSQL " ++ v ≠ "not recorded") ∧
    (get_configdata L B exec).getD 21 none ≠ some "not recorded" := by
  have hne : ∀ v : String, "PostgreSQL " ++ v ≠ "not recorded" := by
    intro v h
    have h2 : ("PostgreSQL " ++ v).data = "not recorded".data :=
      congrArg String.data h
    rw [String.data_append] at h2
    have h3 : ("PostgreSQL ".data ++ v.data).head? = some 'P' := rfl
    rw [h2] at h3
    exact absurd h3 (by decide)
  refine ⟨rfl, hne, ?_⟩
  have hv : (get_configdata L B exec).getD 21 none
      = some ("PostgreSQL " ++ B.pg_version) := rfl
  rw [hv]
  intro h
  exact hne B.pg_version (Option.some.inj h)

/-- C6: each optional build-time literal entry (indices 13-20) is the
embedded constant when it was embedded, else exactly "not recorded"; the
orNotRecorded selector embeds the ifdef pattern of lines 266-312. -/
theorem literal_entries_embedded_or_fallback (L : PathOffsets)
    (B : BuildVals) (exec : String) (v : String) :
    (get_configdata L B exec).getD 13 none
      = some (orNotRecorded B.val_configure) ∧
    (get_configdata L B exec).getD 14 none
      = some (orNotRecorded B.val_cc) ∧
    (get_configdata L B exec).getD 15 none
      = some (orNotRecorded B.val_cppflags) ∧
    (get_configdata L B exec).getD 16 none
      = some (orNotRecorded B.val_cflags) ∧
    (get_configdata L B exec).getD 17 none
      = some (orNotRecorded B.val_cflags_sl) ∧
    (get_configdata L B exec).getD 18 none
      = some (orNotRecorded B.val_ldflags) ∧
    (get_configdata L B exec).getD 19 none
      = some (orNotRecorded B.val_ldflags_sl) ∧
    (get_configdata L B exec).getD 20 none
      = some (orNotRecorded B.val_libs) ∧
    orNotRecorded (some v) = v ∧
    orNotRecorded none = "not recorded" := by
  exact ⟨rfl, rfl, rfl, rfl, rfl, rfl, rfl, rfl, rfl, rfl⟩

/-- C9: populate is idempotent: a second call with the same ExecutablePath
and build constants leaves the ConfigTable contents bit-identical, and the
emitted rows identical, because get_configdata assigns every setting from
its inputs alone and never reads the previous state. -/
theorem populate_idempotent (L : PathOffsets) (B : BuildVals)
    (exec : String) (st : List (Option String)) :
    populate L B exec (populate L B exec st) = populate L B exec st ∧
    emitLoop (mkTable (populate L B exec (populate L B exec st)))
      = emitLoop (mkTable (populate L B exec st)) := by
  exact ⟨rfl, rfl⟩

/-- C7: the BINDIR entry (index 0) is the ExecutablePath with exactly its
trailing path segment stripped; in particular for
"/usr/local/pgsql/bin/postgres" it is "/usr/local/pgsql/bin". -/
theorem bindir_strips_last_segment (L : PathOffsets) (B : BuildVals)
    (pre seg : String) (h : '/' ∉ seg.data) :
    (get_configdata L B (pre ++ "/" ++ seg)).getD 0 none = some pre ∧
    (get_configdata L B "/usr/local/pgsql/bin/postgres").getD 0 none
      = some "/usr/local/pgsql/bin" := by
  constructor
  · show some (cleanup_path (stripLastSegment (pre ++ "/" ++ seg)))
      = some pre
    rw [stripLastSegment_append pre seg h]
    rfl
  · show some (cleanup_path (stripLastSegment "/usr/local/pgsql/bin/postgres"))
      = some "/usr/local/pgsql/bin"
    decide

/-- Witness for C7 at ExecutablePath "/usr/local/pgsql/bin/postgres". -/
theorem bindir_strips_last_segment_witness :
    (get_configdata sampleOffsets sampleBuild
        ("/usr/local/pgsql/bin" ++ "/" ++ "postgres")).getD 0 none
      = some "/usr/local/pgsql/bin" ∧
    (get_configdata sampleOffsets sampleBuild
        "/usr/local/pgsql/bin/postgres").getD 0 none
      = some "/usr/local/pgsql/bin" :=
  bindir_strips_last_segment sampleOffsets sampleBuild
    "/usr/local/pgsql/bin" "postgres" (by decide)

lemma pg_config_some (L : PathOffsets) (B : BuildVals) (exec : String)
    (ri : RsInfo) (st : List (Option String)) :
    pg_config L B exec (some ri) st =
      if ri.allowsMaterialize = false then
        (st, Except.error PgError.unsupportedContext)
      else if ri.expectedDesc.length ≠ 2 ∨ ri.expectedDesc.getD 0 0 ≠ TEXTOID
          ∨ ri.expectedDesc.getD 1 0 ≠ TEXTOID then
        (st, Except.error PgError.schemaMismatch)
      else
        (get_configdata L B exec,
         Except.ok (emitLoop (mkTable (get_configdata L B exec)))) := rfl

/-- C2: with a caller that does allow materialize mode, any expected tuple
descriptor other than exactly two text columns makes pg_config fail with
the schema error, producing no rows and leaving the shared settings state
untouched - the check happens before any row is built and before
get_configdata runs. -/
theorem pg_config_schema_mismatch (L : PathOffsets) (B : BuildVals)
    (exec : String) (ri : RsInfo) (st : List (Option String))
    (hmat : ri.allowsMaterialize = true)
    (hdesc : ri.expectedDesc ≠ [TEXTOID, TEXTOID]) :
    pg_config L B exec (some ri) st
      = (st, Except.error PgError.schemaMismatch) := by
  have hcond : ri.expectedDesc.length ≠ 2 ∨ ri.expectedDesc.getD 0 0 ≠ TEXTOID
      ∨ ri.expectedDesc.getD 1 0 ≠ TEXTOID := by
    by_contra hc
    push_neg at hc
    obtain ⟨h1, h2, h3⟩ := hc
    apply hdesc
    rcases hdl : ri.expectedDesc with _ | ⟨a, _ | ⟨b, _ | ⟨c, t⟩⟩⟩
    · rw [hdl] at h1; simp at h1
    · rw [hdl] at h1; simp at h1
    · rw [hdl] at h2 h3
      simp only [List.getD] at h2 h3
      simp at h2 h3
      rw [h2, h3]
    · rw [hdl] at h1; simp at h1
  rw [pg_config_some, if_neg (by simp [hmat]), if_pos hcond]

/-- Witness for C2: a one-column descriptor is rejected with no rows. -/
theorem pg_config_schema_mismatch_witness :
    pg_config sampleOffsets sampleBuild "/usr/local/pgsql/bin/postgres"
      (some ⟨true, [TEXTOID]⟩) initSettings
      = (initSettings, Except.error PgError.schemaMismatch) :=
  pg_config_schema_mismatch sampleOffsets sampleBuild
    "/usr/local/pgsql/bin/postgres" ⟨true, [TEXTOID]⟩ initSettings rfl
    (by decide)

/-- C8: a NULL rsinfo, or one whose allowedModes lacks SFRM_Materialize,
makes pg_config fail with the unsupported-context error at once: the state
is untouched and no rows are produced, before any population work. -/
theorem pg_config_unsupported_context (L : PathOffsets) (B : BuildVals)
    (exec : String) (st : List (Option String)) :
    pg_config L B exec none st
      = (st, Except.error PgError.unsupportedContext) ∧
    ∀ ri : RsInfo, ri.allowsMaterialize = false →
      pg_config L B exec (some ri) st
        = (st, Except.error PgError.unsupportedContext) := by
  refine ⟨rfl, ?_⟩
  intro ri h
  rw [pg_config_some, if_pos h]

/-- Witness for C8 at a NULL rsinfo and at a non-materialize caller. -/
theorem pg_config_unsupported_context_witness :
    pg_config sampleOffsets sampleBuild "/usr/local/pgsql/bin/postgres"
      none initSettings
      = (initSettings, Except.error PgError.unsupportedContext) ∧
    pg_config sampleOffsets sampleBuild "/usr/local/pgsql/bin/postgres"
      (some ⟨false, [TEXTOID, TEXTOID]⟩) initSettings
      = (initSettings, Except.error PgError.unsupportedContext) :=
  ⟨(pg_config_unsupported_context sampleOffsets sampleBuild
      "/usr/local/pgsql/bin/postgres" initSettings).1,
   (pg_config_unsupported_context sampleOffsets sampleBuild
      "/usr/local/pgsql/bin/postgres" initSettings).2
     ⟨false, [TEXTOID, TEXTOID]⟩ rfl⟩

/-- Counterexample to C4 as stated: an invocation does write state visible
to later invocations. ConfigData is a file-static array, and a successful
call of pg_config overwrites its settings column in place; starting from
the initial all-NULL settings, the state after one call differs from the
state before it, so the table is shared mutable state, not a fresh
per-invocation instance. -/
theorem configdata_shared_state_cex :
    ¬ (pg_config sampleOffsets sampleBuild "/usr/local/pgsql/bin/postgres"
        (some sampleRsInfo) initSettings).1 = initSettings := by
  decide

/-- C4 amended: the ConfigTable is the settings column of the single
file-static ConfigData array, shared across invocations and overwritten in
full by each successful call; consequently the result of an invocation is
independent of the state any earlier invocation left behind, the post-state
is a function of ExecutablePath and the build constants alone, and the
read-only ExecutablePath is never written (it is a pure input of the
model). -/
theorem pg_config_state_independent (L : PathOffsets) (B : BuildVals)
    (exec : String) (ri : RsInfo) (st st' : List (Option String))
    (hmat : ri.allowsMaterialize = true)
    (hdesc : ri.expectedDesc = [TEXTOID, TEXTOID]) :
    pg_config L B exec (some ri) st = pg_config L B exec (some ri) st' ∧
    (pg_config L B exec (some ri) st).1 = get_configdata L B exec := by
  have hrun : ∀ s : List (Option String), pg_config L B exec (some ri) s
      = (get_configdata L B exec,
         Except.ok (emitLoop (mkTable (get_configdata L B exec)))) := by
    intro s
    rw [pg_config_some, if_neg (by simp [hmat]),
      if_neg (by rw [hdesc]; decide)]
  exact ⟨by rw [hrun st, hrun st'], by rw [hrun st]⟩

/-- Witness for the amended C4: two calls from different prior states agree
bit for bit. -/
theorem pg_config_state_independent_witness :
    pg_config sampleOffsets sampleBuild "/usr/local/pgsql/bin/postgres"
        (some sampleRsInfo) initSettings
      = pg_config sampleOffsets sampleBuild "/usr/local/pgsql/bin/postgres"
        (some sampleRsInfo) (List.replicate 22 (some "stale")) ∧
    (pg_config sampleOffsets sampleBuild "/usr/local/pgsql/bin/postgres"
        (some sampleRsInfo) initSettings).1
      = get_configdata sampleOffsets sampleBuild
          "/usr/local/pgsql/bin/postgres" :=
  pg_config_state_independent sampleOffsets sampleBuild
    "/usr/local/pgsql/bin/postgres" sampleRsInfo initSettings
    (List.replicate 22 (some "stale")) rfl rfl

lemma cstrLen_le_length (b : List Char) : cstrLen b ≤ b.length :=
  (List.takeWhile_sublist _).length_le

lemma scanDlen_eq_min (n : Nat) (b : List Char) :
    scanDlen n b = min (cstrLen b) n := by
  induction b generalizing n with
  | nil =>
    cases n <;> simp [scanDlen, cstrLen]
  | cons c rest ih =>
    cases n with
    | zero => simp [scanDlen]
    | succ m =>
      by_cases hc : c = nulC
      · simp [scanDlen, hc, cstrLen, List.takeWhile]
      · have hcs : cstrLen (c :: rest) = cstrLen rest + 1 := by
          simp [cstrLen, List.takeWhile, hc]
        rw [hcs]
        show (if c = nulC then 0 else scanDlen m rest + 1)
          = min (cstrLen rest + 1) (m + 1)
        rw [if_neg hc, ih m]
        omega

lemma conf_strlcat_full (b s : List Char) (siz : Nat)
    (h : siz ≤ scanDlen siz b) :
    conf_strlcat b s siz = (b, scanDlen siz b + s.length) := by
  unfold conf_strlcat
  have h0 : siz - scanDlen siz b = 0 := by omega
  simp [h0]

lemma conf_strlcat_copy (b s : List Char) (siz : Nat)
    (h : scanDlen siz b < siz) :
    conf_strlcat b s siz =
      (b.take (scanDlen siz b)
         ++ s.take (min s.length (siz - scanDlen siz b - 1))
         ++ nulC :: b.drop
              (scanDlen siz b + min s.length (siz - scanDlen siz b - 1) + 1),
       scanDlen siz b + s.length) := by
  unfold conf_strlcat
  have h0 : ¬ siz - scanDlen siz b = 0 := by omega
  simp [h0]

/-- C10: conf_strlcat on a destination buffer of capacity siz holding a
NUL-terminated string of length cstrLen b, and a NUL-terminated source
string: the buffer keeps its size (all writes land inside it), the held
string stays intact up to its length, the result is NUL-terminated whenever
the held string is shorter than siz, the buffer is untouched when no NUL
falls within the first siz bytes, and the returned count is the length of
the concatenation it tried to create. -/
theorem conf_strlcat_spec (b s : List Char) (siz : Nat)
    (hcap : b.length = siz) (_hs : nulC ∉ s) :
    (conf_strlcat b s siz).1.length = siz ∧
    (cstrLen b < siz → nulC ∈ (conf_strlcat b s siz).1) ∧
    (siz ≤ cstrLen b → (conf_strlcat b s siz).1 = b) ∧
    (conf_strlcat b s siz).2 = cstrLen b + s.length ∧
    (conf_strlcat b s siz).1.take (cstrLen b) = b.take (cstrLen b) := by
  have hle : cstrLen b ≤ siz := hcap ▸ cstrLen_le_length b
  have hscan : scanDlen siz b = cstrLen b := by
    rw [scanDlen_eq_min]; omega
  by_cases hlt : cstrLen b < siz
  · have hc := conf_strlcat_copy b s siz (by omega)
    rw [hc]
    set k := min s.length (siz - scanDlen siz b - 1) with hk
    have hkb : scanDlen siz b + k + 1 ≤ b.length := by
      have : k ≤ siz - scanDlen siz b - 1 := min_le_right _ _
      omega
    have htl : (b.take (scanDlen siz b)).length = scanDlen siz b := by
      rw [List.length_take]
      omega
    refine ⟨?_, fun _ => ?_, fun hge => absurd hlt (by omega), ?_, ?_⟩
    · simp only [List.length_append, List.length_take, List.length_cons,
        List.length_drop]
      omega
    · simp
    · simp [hscan]
    · show (List.take (scanDlen siz b) b ++ List.take k s
          ++ nulC :: List.drop (scanDlen siz b + k + 1) b).take (cstrLen b)
        = List.take (cstrLen b) b
      rw [List.append_assoc, ← hscan, List.take_left' htl, hscan]
  · have heq : cstrLen b = siz := by omega
    have hfull := conf_strlcat_full b s siz (by omega)
    rw [hfull]
    exact ⟨hcap, fun hx => absurd hx (by omega), fun _ => rfl,
      by rw [hscan], rfl⟩

/-- Witness for C10 on the buffer holding "ab" in four bytes with source
"cd": the result holds "abc", is NUL-terminated, keeps length 4, and the
call returns 4. -/
theorem conf_strlcat_spec_witness :
    (conf_strlcat ['a', 'b', nulC, 'x'] ['c', 'd'] 4).1.length = 4 ∧
    (cstrLen ['a', 'b', nulC, 'x'] < 4 →
      nulC ∈ (conf_strlcat ['a', 'b', nulC, 'x'] ['c', 'd'] 4).1) ∧
    (4 ≤ cstrLen ['a', 'b', nulC, 'x'] →
      (conf_strlcat ['a', 'b', nulC, 'x'] ['c', 'd'] 4).1
        = ['a', 'b', nulC, 'x']) ∧
    (conf_strlcat ['a', 'b', nulC, 'x'] ['c', 'd'] 4).2
      = cstrLen ['a', 'b', nulC, 'x'] + (['c', 'd'] : List Char).length ∧
    (conf_strlcat ['a', 'b', nulC, 'x'] ['c', 'd'] 4).1.take
        (cstrLen ['a', 'b', nulC, 'x'])
      = (['a', 'b', nulC, 'x'] : List Char).take
          (cstrLen ['a', 'b', nulC, 'x']) :=
  conf_strlcat_spec ['a', 'b', nulC, 'x'] ['c', 'd'] 4 (by decide)
    (by decide)

lemma takeWhile_append_nul (l t : List Char) (h : nulC ∉ l) :
    (l ++ nulC :: t).takeWhile (fun c => c ≠ nulC) = l := by
  induction l with
  | nil =>
    rw [List.nil_append, List.takeWhile_cons_of_neg]
    simp
  | cons x xs ih =>
    have hx : x ≠ nulC := fun hh => h (hh ▸ List.mem_cons_self x xs)
    have hxs : nulC ∉ xs := fun hh => h (List.mem_cons_of_mem _ hh)
    rw [List.cons_append, List.takeWhile_cons_of_pos (by simp [hx]),
      ih hxs]

lemma conf_strlcat_str_eq_append (dst src : String) (siz : Nat)
    (hd : nulC ∉ dst.data) (hsrc : nulC ∉ src.data)
    (h : dst.data.length + src.data.length < siz) :
    conf_strlcat_str dst src siz = dst ++ src := by
  unfold conf_strlcat_str strToBuf
  have hdlt : dst.data.length < siz := by omega
  have hpad : siz - dst.data.length = (siz - dst.data.length - 1) + 1 := by
    omega
  have hbuf : dst.data ++ List.replicate (siz - dst.data.length) nulC
      = dst.data ++ nulC :: List.replicate (siz - dst.data.length - 1) nulC
      := by
        rw [hpad, List.replicate_succ]
        simp
  rw [hbuf]
  have hcstr : cstrLen (dst.data
      ++ nulC :: List.replicate (siz - dst.data.length - 1) nulC)
      = dst.data.length := by
    unfold cstrLen
    rw [takeWhile_append_nul _ _ hd]
  have hscan : scanDlen siz (dst.data
      ++ nulC :: List.replicate (siz - dst.data.length - 1) nulC)
      = dst.data.length := by
    rw [scanDlen_eq_min, hcstr]; omega
  rw [conf_strlcat_copy _ _ _ (by rw [hscan]; omega), hscan]
  have hmin : min src.data.length (siz - dst.data.length - 1)
      = src.data.length := by omega
  rw [hmin]
  unfold bufToStr
  rw [List.take_left, List.take_length]
  have hboth : nulC ∉ dst.data ++ src.data := by
    intro hm
    rcases List.mem_append.mp hm with hm1 | hm2
    · exact hd hm1
    · exact hsrc hm2
  rw [takeWhile_append_nul _ _ hboth]
  have hda : (dst ++ src).data = dst.data ++ src.data :=
    String.data_append dst src
  exact String.ext (by rw [hda])

/-- C3 amended: after populate(), the PGXS entry (index 12) equals the
PKGLIBDIR entry (index 7) with "/pgxs/src/makefiles/pgxs.mk" appended,
provided the pkglib path is a NUL-free string short enough that the
concatenation still fits the MAXPGPATH buffer conf_strlcat writes into
(length of the pkglib path plus the 27-character suffix below MAXPGPATH);
otherwise conf_strlcat truncates the suffix. -/
theorem pgxs_append_of_fits (L : PathOffsets) (B : BuildVals)
    (exec : String)
    (hnul : nulC ∉ (derivePath L.pkglib exec).data)
    (hlen : (derivePath L.pkglib exec).data.length
      + ("/pgxs/src/makefiles/pgxs.mk" : String).data.length < MAXPGPATH) :
    (get_configdata L B exec).getD 12 none
      = ((get_configdata L B exec).getD 7 none).map
          (fun v => v ++ "/pgxs/src/makefiles/pgxs.mk") := by
  have h12 : (get_configdata L B exec).getD 12 none
      = some (cleanup_path (conf_strlcat_str (derivePath L.pkglib exec)
          "/pgxs/src/makefiles/pgxs.mk" MAXPGPATH)) := rfl
  have h7 : (get_configdata L B exec).getD 7 none
      = some (cleanup_path (derivePath L.pkglib exec)) := rfl
  rw [h12, h7, Option.map_some']
  show some (conf_strlcat_str (derivePath L.pkglib exec)
      "/pgxs/src/makefiles/pgxs.mk" MAXPGPATH)
    = some (derivePath L.pkglib exec ++ "/pgxs/src/makefiles/pgxs.mk")
  rw [conf_strlcat_str_eq_append _ _ _ hnul (by decide) hlen]

/-- Witness for the amended C3 at "/usr/local/pgsql/bin/postgres" with the
sample pkglib offset. -/
theorem pgxs_append_of_fits_witness :
    (get_configdata sampleOffsets sampleBuild
        "/usr/local/pgsql/bin/postgres").getD 12 none
      = ((get_configdata sampleOffsets sampleBuild
          "/usr/local/pgsql/bin/postgres").getD 7 none).map
          (fun v => v ++ "/pgxs/src/makefiles/pgxs.mk") :=
  pgxs_append_of_fits sampleOffsets sampleBuild
    "/usr/local/pgsql/bin/postgres" (by decide) (by decide)

/-- Counterexample to C3 as stated: for the 995-character executable path
longExec, whose pkglib path has 997 characters, conf_strlcat runs out of
the 1024-byte buffer and drops the final character of the pgxs.mk suffix,
so the PGXS value is not the PKGLIBDIR value with the full suffix
appended. -/
lemma conf_strlcat_str_trunc (dst src : String) (siz : Nat)
    (hd : nulC ∉ dst.data) (hsrc : nulC ∉ src.data)
    (hlt : dst.data.length < siz)
    (h : siz ≤ dst.data.length + src.data.length) :
    conf_strlcat_str dst src siz
      = String.mk (dst.data ++ src.data.take (siz - dst.data.length - 1))
      := by
  unfold conf_strlcat_str strToBuf
  have hpad : siz - dst.data.length = (siz - dst.data.length - 1) + 1 := by
    omega
  have hbuf : dst.data ++ List.replicate (siz - dst.data.length) nulC
      = dst.data ++ nulC :: List.replicate (siz - dst.data.length - 1) nulC
      := by
        rw [hpad, List.replicate_succ]
        simp
  rw [hbuf]
  have hcstr : cstrLen (dst.data
      ++ nulC :: List.replicate (siz - dst.data.length - 1) nulC)
      = dst.data.length := by
    unfold cstrLen
    rw [takeWhile_append_nul _ _ hd]
  have hscan : scanDlen siz (dst.data
      ++ nulC :: List.replicate (siz - dst.data.length - 1) nulC)
      = dst.data.length := by
    rw [scanDlen_eq_min, hcstr]; omega
  rw [conf_strlcat_copy _ _ _ (by rw [hscan]; omega), hscan]
  have hmin : min src.data.length (siz - dst.data.length - 1)
      = siz - dst.data.length - 1 := by omega
  rw [hmin]
  unfold bufToStr
  rw [List.take_left]
  have hboth : nulC ∉ dst.data ++ src.data.take (siz - dst.data.length - 1)
      := by
    intro hm
    rcases List.mem_append.mp hm with hm1 | hm2
    · exact hd hm1
    · exact hsrc (List.take_subset _ _ hm2)
  rw [takeWhile_append_nul _ _ hboth]

set_option maxRecDepth 8192 in
/-- Counterexample to C3 as stated: for the 995-character executable path
longExec, whose pkglib path has 997 characters, conf_strlcat runs out of
the 1024-byte buffer and drops the final character of the pgxs.mk suffix,
so the PGXS value is not the PKGLIBDIR value with the full suffix
appended. -/
theorem pgxs_truncation_cex :
    ¬ (get_configdata cexOffsets sampleBuild longExec).getD 12 none
      = ((get_configdata cexOffsets sampleBuild longExec).getD 7 none).map
          (fun v => v ++ "/pgxs/src/makefiles/pgxs.mk") := by
  intro hclaim
  have hroot_len : longRoot.data.length = 993 := by
    show ('/' :: List.replicate 992 'a').length = 993
    rw [List.length_cons, List.length_replicate]
  have hstrip : stripLastSegment longExec = longRoot :=
    stripLastSegment_append longRoot "x" (by decide)
  have hplen : (longRoot ++ "/lib").data.length = 997 := by
    rw [String.data_append, List.length_append, hroot_len]
    rfl
  have hpnul : nulC ∉ (longRoot ++ "/lib").data := by
    rw [String.data_append]
    intro hm
    rcases List.mem_append.mp hm with hm1 | hm2
    · rcases List.mem_cons.mp hm1 with hh | hh
      · exact absurd hh (by decide)
      · exact absurd (List.eq_of_mem_replicate hh) (by decide)
    · exact absurd hm2 (by decide)
  have hp : derivePath cexOffsets.pkglib longExec = longRoot ++ "/lib" := by
    unfold derivePath fitPath
    rw [hstrip]
    have hoff : cexOffsets.pkglib = "/lib" := rfl
    rw [hoff]
    apply String.ext
    show (longRoot ++ "/lib").data.take (MAXPGPATH - 1)
      = (longRoot ++ "/lib").data
    apply List.take_of_length_le
    rw [hplen]
    decide
  have hsuf_len : ("/pgxs/src/makefiles/pgxs.mk" : String).data.length = 27
      := rfl
  have h12 : (get_configdata cexOffsets sampleBuild longExec).getD 12 none
      = some (conf_strlcat_str (derivePath cexOffsets.pkglib longExec)
          "/pgxs/src/makefiles/pgxs.mk" MAXPGPATH) := rfl
  have h7 : (get_configdata cexOffsets sampleBuild longExec).getD 7 none
      = some (derivePath cexOffsets.pkglib longExec) := rfl
  rw [h12, h7, Option.map_some', hp] at hclaim
  rw [conf_strlcat_str_trunc _ _ _ hpnul (by decide) (by rw [hplen]; decide)
      (by rw [hplen, hsuf_len]; decide)] at hclaim
  have hdata := congrArg String.data (Option.some.inj hclaim)
  have hlen := congrArg List.length hdata
  have h4 : ("/lib" : String).data.length = 4 := rfl
  simp only [String.data_append, List.length_append, List.length_take,
    hroot_len, hsuf_len, h4, MAXPGPATH] at hlen
  omega

end PgConfig
